import Mathlib

/-!
# ioBroker.autodarts: the throw / visit detection of `main.js`

A shallow embedding of `calcScore` and of the response handler that `fetchState`
installs with `res.on("end", ...)`, followed by theorems about them.

Modelling conventions.

* The numbers a body carries are integer-valued doubles, held as `Int`; `JSON.stringify`
  renders them in decimal, with a leading minus sign for negative ones (as JavaScript
  does below `10^21`).
* Arithmetic is that of IEEE 754 binary64 on such numbers: a product or a sum is the
  exact integer result rounded to the nearest double, ties to even, and `Infinity`
  beyond the largest double; its values are a `JSNumber`. The two zeros are not
  told apart.
* Every element of the `throws` array is a JSON object, the dart, with an optional
  `segment`, whose `name` (a string), `number` and `multiplier` (numbers) are optional;
  a property that is missing or `null` is `none`.
* JavaScript strings are Lean strings, so lone surrogates do not occur.
* The body of the response is taken after `JSON.parse`: it does not parse, it is `null`,
  or it is a value whose `throws` property is missing, not an array, or an array of darts.
* `setState` calls are recorded, in order, as a list of `StateWrite`; log lines are
  not recorded.
-/

namespace Autodarts

/-! ## JavaScript numbers -/

/-- A JavaScript number that arithmetic on integer-valued doubles can produce. -/
inductive JSNumber where
  /-- an integer-valued double -/
  | finite (value : Int)
  /-- `Infinity` -/
  | posInf
  /-- `-Infinity` -/
  | negInf
  /-- `NaN` -/
  | nan
  deriving DecidableEq, Repr

/-- The spacing of the doubles around `a`: starting from `u`, the first of
`u, 2u, 4u, ...` (at most `fuel` doublings) with `a / u < 2 ^ 53`. -/
def ulpFrom : Nat → Nat → Nat → Nat
  | 0, _, u => u
  | fuel + 1, a, u => if a / u < 2 ^ 53 then u else ulpFrom fuel a (2 * u)

/-- The bound `2 ^ 1024`, which no finite double reaches. -/
def overflowBound : Nat := (2 ^ 256) ^ 4

/-- The double nearest to the integer `x` (round to nearest, ties to even): `x` itself
up to `2 ^ 53` in magnitude, otherwise the nearest multiple of the spacing, and an
infinity when that reaches `2 ^ 1024`. -/
def roundDouble (x : Int) : JSNumber :=
  let a := x.natAbs
  if a ≤ 2 ^ 53 then JSNumber.finite x
  else if a ≥ overflowBound then (if x < 0 then JSNumber.negInf else JSNumber.posInf)
  else
    let ulp := ulpFrom 971 a 1
    let q := a / ulp
    let r := a % ulp
    let q := if 2 * r > ulp ∨ (2 * r = ulp ∧ q % 2 = 1) then q + 1 else q
    let m := q * ulp
    if m ≥ overflowBound then (if x < 0 then JSNumber.negInf else JSNumber.posInf)
    else JSNumber.finite (if x < 0 then -(m : Int) else (m : Int))

/-- The operator `a * b` on two integer-valued doubles. -/
def jsMul (a b : Int) : JSNumber :=
  roundDouble (a * b)

/-- The operator `a + b`. -/
def jsAdd : JSNumber → JSNumber → JSNumber
  | JSNumber.finite a, JSNumber.finite b => roundDouble (a + b)
  | JSNumber.nan, _ => JSNumber.nan
  | _, JSNumber.nan => JSNumber.nan
  | JSNumber.posInf, JSNumber.negInf => JSNumber.nan
  | JSNumber.negInf, JSNumber.posInf => JSNumber.nan
  | JSNumber.posInf, _ => JSNumber.posInf
  | _, JSNumber.posInf => JSNumber.posInf
  | JSNumber.negInf, _ => JSNumber.negInf
  | _, JSNumber.negInf => JSNumber.negInf

/-- The operator `a >= b` for an integer-valued double `b`. -/
def jsGe : JSNumber → Int → Bool
  | JSNumber.finite a, b => decide (a ≥ b)
  | JSNumber.posInf, _ => true
  | JSNumber.negInf, _ => false
  | JSNumber.nan, _ => false

/-! ## Data model -/

/-- The `segment` object of a dart as delivered by `GET /api/state`. -/
structure Segment where
  name : Option String
  number : Option Int
  multiplier : Option Int
  deriving DecidableEq, Repr

/-- One element of the `throws` array. -/
structure Dart where
  segment : Option Segment
  deriving DecidableEq, Repr

/-- The value found under `state.throws` after `JSON.parse`. -/
inductive ThrowsField where
  /-- the property is absent (`undefined`) -/
  | missing
  /-- the property is present and is anything but an array -/
  | notArray
  /-- the property is an array of darts -/
  | array (darts : List Dart)
  deriving DecidableEq, Repr

/-- The response body `data`, seen through `JSON.parse`. -/
inductive Body where
  /-- `JSON.parse(data)` throws a `SyntaxError` -/
  | unparseable
  /-- `JSON.parse(data)` is `null`, so that reading `state.throws` throws a `TypeError` -/
  | nullValue
  /-- `JSON.parse(data)` is a value whose `throws` property reads as given -/
  | parsed (throws : ThrowsField)
  deriving DecidableEq, Repr

/-- The fields of the adapter instance that the handler reads and writes. -/
structure Adapter where
  lastThrowsCount : Nat
  lastSignature : String
  offline : Bool
  deriving DecidableEq, Repr

/-- One `setState` call of the handler. -/
inductive StateWrite where
  | online (val : Bool)
  | throwCurrent (val : JSNumber)
  | throwIsTriple (val : Bool)
  | visitScore (val : JSNumber)
  deriving DecidableEq, Repr

/-- The tracker fields as the constructor sets them (and as `onReady` resets them). -/
def constructor : Adapter :=
  { lastThrowsCount := 0, lastSignature := "", offline := false }

/-! ## JavaScript operators on optional values -/

/-- The expression `x || 0` for an optional number. -/
def orZero : Option Int → Int
  | some n => if n ≠ 0 then n else 0
  | none => 0

/-- The expression `x || ""` for an optional string. -/
def orEmpty : Option String → String
  | some s => if s ≠ "" then s else ""
  | none => ""

/-! ## calcScore -/

/-- The method `calcScore(dart)`; `none` is an absent dart. -/
def calcScore (dart : Option Dart) : JSNumber :=
  match dart with
  | none => JSNumber.finite 0
  | some d =>
    match d.segment with
    | none => JSNumber.finite 0
    | some seg => jsMul (orZero seg.number) (orZero seg.multiplier)

/-! ## JSON.stringify of the signature array -/

/-- The double quote U+0022. -/
def dquote : Char := Char.ofNat 34

/-- The reverse solidus U+005C. -/
def bslash : Char := Char.ofNat 92

/-- The opening brace U+007B. -/
def lbrace : Char := Char.ofNat 123

/-- The closing brace U+007D. -/
def rbrace : Char := Char.ofNat 125

/-- One lowercase hexadecimal digit. -/
def hexDigit (n : Nat) : Char :=
  if n < 10 then Char.ofNat (48 + n) else Char.ofNat (87 + n)

/-- The text `JSON.stringify` emits for one character of a string (QuoteJSONString). -/
def escapeChar (c : Char) : List Char :=
  if c.toNat = 34 then [bslash, dquote]
  else if c.toNat = 92 then [bslash, bslash]
  else if c.toNat = 8 then [bslash, 'b']
  else if c.toNat = 9 then [bslash, 't']
  else if c.toNat = 10 then [bslash, 'n']
  else if c.toNat = 12 then [bslash, 'f']
  else if c.toNat = 13 then [bslash, 'r']
  else if c.toNat < 32 then
    [bslash, 'u', '0', '0', hexDigit (c.toNat / 16), hexDigit (c.toNat % 16)]
  else [c]

/-- The escaped body of a string, without the surrounding quotes. -/
def escapeChars : List Char → List Char
  | [] => []
  | c :: cs => escapeChar c ++ escapeChars cs

/-- The text of `JSON.stringify(s)` for a string `s`. -/
def quoteJSON (s : String) : List Char :=
  dquote :: (escapeChars s.data ++ [dquote])

/-- The text of `JSON.stringify(n)` for an integer `n`. -/
def numberToString : Int → List Char
  | Int.ofNat n => Nat.toDigits 10 n
  | Int.negSucc n => '-' :: Nat.toDigits 10 (n + 1)

/-- The expression `d.segment?.name`. -/
def segmentName (d : Dart) : Option String :=
  d.segment.bind (fun seg => seg.name)

/-- The expression `d.segment?.multiplier`. -/
def segmentMultiplier (d : Dart) : Option Int :=
  d.segment.bind (fun seg => seg.multiplier)

/-- The object `{ name: d.segment?.name || "", mult: d.segment?.multiplier || 0 }`
that the signature maps a dart to, as the pair of its two property values. -/
def sigEntry (d : Dart) : String × Int :=
  (orEmpty (segmentName d), orZero (segmentMultiplier d))

/-- The text of `JSON.stringify` for one such object. -/
def stringifyEntry (e : String × Int) : List Char :=
  [lbrace] ++ quoteJSON "name" ++ [':'] ++ quoteJSON e.1 ++ [','] ++
    quoteJSON "mult" ++ [':'] ++ numberToString e.2 ++ [rbrace]

/-- The elements of an array, separated by commas. -/
def joinComma : List (List Char) → List Char
  | [] => []
  | [x] => x
  | x :: y :: rest => x ++ ',' :: joinComma (y :: rest)

/-- The text of `JSON.stringify` for the array of signature objects. -/
def stringifyEntries (es : List (String × Int)) : List Char :=
  '[' :: (joinComma (es.map stringifyEntry) ++ [']'])

/-- The `signature` computed in `fetchState`:
`JSON.stringify(currentThrows.map(d => (name, mult) object))`. -/
def signature (currentThrows : List Dart) : String :=
  String.mk (stringifyEntries (currentThrows.map sigEntry))

/-! ## The response handler of fetchState -/

/-- The value of `isTriple`:
`!!lastDart?.segment && lastDart.segment.multiplier === 3 && score >= minScore`. -/
def isTriple (lastDart : Option Dart) (score : JSNumber) (minScore : Int) : Bool :=
  match lastDart with
  | none => false
  | some d =>
    match d.segment with
    | none => false
    | some seg => seg.multiplier == some 3 && jsGe score minScore

/-- The handler `res.on("end", ...)` of `fetchState`, run on the adapter `self` with the
configured `tripleMinScore` and the received body. It returns the adapter afterwards
and the `setState` calls in the order they are made. -/
def fetchState (tripleMinScore : Int) (self : Adapter) (data : Body) :
    Adapter × List StateWrite :=
  let self := { self with offline := false }
  let writes := [StateWrite.online true]
  match data with
  | Body.unparseable => (self, writes ++ [StateWrite.online true])
  | Body.nullValue => (self, writes ++ [StateWrite.online true])
  | Body.parsed ThrowsField.missing => (self, writes)
  | Body.parsed ThrowsField.notArray => (self, writes)
  | Body.parsed (ThrowsField.array currentThrows) =>
    if currentThrows.length = 0 then (self, writes)
    else
      let currentCount := currentThrows.length
      let sig := signature currentThrows
      if sig = self.lastSignature then (self, writes)
      else
        let self := { self with lastSignature := sig }
        let lastDart := currentThrows.getLast?
        let score := calcScore lastDart
        let minScore := orZero (some tripleMinScore)
        let triple := isTriple lastDart score minScore
        let writes := writes ++
          [StateWrite.throwCurrent score, StateWrite.throwIsTriple triple]
        let writes :=
          if currentCount = 3 ∧ self.lastThrowsCount < 3 then
            let lastThrows := currentThrows.drop (currentThrows.length - 3)
            let visitSum :=
              lastThrows.foldl (fun sum dart => jsAdd sum (calcScore (some dart)))
                (JSNumber.finite 0)
            writes ++ [StateWrite.visitScore visitSum]
          else writes
        ({ self with lastThrowsCount := currentCount }, writes)

/-! ## Observations on a list of writes and runs of polls -/

/-- The values written to `visit.score`, in order. -/
def visitScores (ws : List StateWrite) : List JSNumber :=
  ws.filterMap (fun w => match w with
    | StateWrite.visitScore v => some v
    | _ => none)

/-- The values written to `throw.current`, in order. -/
def throwCurrents (ws : List StateWrite) : List JSNumber :=
  ws.filterMap (fun w => match w with
    | StateWrite.throwCurrent v => some v
    | _ => none)

/-- The values written to `throw.isTriple`, in order. -/
def throwIsTriples (ws : List StateWrite) : List Bool :=
  ws.filterMap (fun w => match w with
    | StateWrite.throwIsTriple v => some v
    | _ => none)

/-- The handler run on a sequence of response bodies, one poll after the other, each on
the adapter the previous one left; it returns the final adapter and the writes of each
poll. -/
def polls (tripleMinScore : Int) (self : Adapter) : List Body → Adapter × List (List StateWrite)
  | [] => (self, [])
  | data :: rest =>
    let r := fetchState tripleMinScore self data
    let rs := polls tripleMinScore r.1 rest
    (rs.1, r.2 :: rs.2)

/-- The response body that carries the given throws array. -/
def snapshot (darts : List Dart) : Body :=
  Body.parsed (ThrowsField.array darts)

/-- The visit total the handler computes: `calcScore` summed over `slice(-3)`. -/
def visitSum (currentThrows : List Dart) : JSNumber :=
  (currentThrows.drop (currentThrows.length - 3)).foldl
    (fun sum dart => jsAdd sum (calcScore (some dart))) (JSNumber.finite 0)

/-! ## Sample darts -/

/-- A dart with all three segment fields present. -/
def mkDart (name : String) (number multiplier : Int) : Dart :=
  { segment := some { name := some name, number := some number, multiplier := some multiplier } }

/-- Three darts used in the worked examples: T20, S5 and D10. -/
def sampleVisit : List Dart :=
  [mkDart "T20" 20 3, mkDart "S5" 5 1, mkDart "D10" 10 2]

/-- Three darts scoring `2 ^ 53`, 1 and 1. -/
def largeVisit : List Dart :=
  [mkDart "N" 9007199254740992 1, mkDart "S1" 1 1, mkDart "S1" 1 1]

/-- A dart that carries no segment at all. -/
def dartNoSegment : Dart := { segment := none }

/-- A dart whose segment has the empty name and multiplier 0. -/
def dartEmptyName : Dart :=
  { segment := some { name := some "", number := some 0, multiplier := some 0 } }

/-- A miss as a segment with multiplier 0. -/
def dartMissZero : Dart :=
  { segment := some { name := some "Miss", number := some 0, multiplier := some 0 } }

/-- The same miss with the multiplier left out. -/
def dartMissNoMultiplier : Dart :=
  { segment := some { name := some "Miss", number := some 0, multiplier := none } }

/-! ## Auxiliary definitions used in the proofs -/

/-- The decimal digits of `n`, most significant first, read off `Nat.digits`. -/
def decChars (n : Nat) : List Char :=
  if n = 0 then ['0'] else (Nat.digits 10 n).reverse.map Nat.digitChar

/-- The value of a lowercase hexadecimal digit. -/
def hexVal (c : Char) : Nat :=
  if c.toNat < 58 then c.toNat - 48 else c.toNat - 87

/-- A reader for one escaped character at the front of a text: a left inverse of
`escapeChar`, used to show that escaping loses nothing. -/
def unescapeHead : List Char → Option (Char × List Char)
  | [] => none
  | c :: rest =>
    if c.toNat ≠ 92 then some (c, rest)
    else
      match rest with
      | [] => none
      | k :: rest =>
        if k.toNat = 34 then some (Char.ofNat 34, rest)
        else if k.toNat = 92 then some (Char.ofNat 92, rest)
        else if k = 'b' then some (Char.ofNat 8, rest)
        else if k = 't' then some (Char.ofNat 9, rest)
        else if k = 'n' then some (Char.ofNat 10, rest)
        else if k = 'f' then some (Char.ofNat 12, rest)
        else if k = 'r' then some (Char.ofNat 13, rest)
        else
          match rest with
          | _ :: _ :: h₁ :: h₂ :: rest => some (Char.ofNat (16 * hexVal h₁ + hexVal h₂), rest)
          | _ => none

/-- What follows the first element in the text of an array: the remaining elements,
each after a comma, and the closing bracket. -/
def entriesTail : List (String × Int) → List Char
  | [] => [']']
  | e :: es => ',' :: (stringifyEntry e ++ entriesTail es)

/-! ## Decimal rendering of numbers -/

theorem toDigitsCore_eq_decChars (fuel : Nat) :
    ∀ (n : Nat) (acc : List Char), n < fuel →
      Nat.toDigitsCore 10 fuel n acc = decChars n ++ acc := by
  induction fuel with
  | zero => intro n acc h; omega
  | succ fuel ih =>
    intro n acc h
    simp only [Nat.toDigitsCore]
    by_cases h0 : n / 10 = 0
    · have hlt : n < 10 := by omega
      simp only [h0, if_true]
      by_cases hn : n = 0
      · subst hn; simp [decChars, Nat.digitChar]
      · have hd : Nat.digits 10 n = [n] := Nat.digits_of_lt 10 n hn hlt
        have hm : n % 10 = n := Nat.mod_eq_of_lt hlt
        simp [decChars, hn, hd, hm]
    · have hn : n ≠ 0 := by omega
      have hpos : 0 < n := Nat.pos_of_ne_zero hn
      have hd : Nat.digits 10 n = n % 10 :: Nat.digits 10 (n / 10) :=
        Nat.digits_def' (by decide) hpos
      have hrec := ih (n / 10) (Nat.digitChar (n % 10) :: acc) (by omega)
      simp only [h0, if_false]
      rw [hrec]
      simp [decChars, hn, h0, hd]

theorem toDigits_eq_decChars (n : Nat) : Nat.toDigits 10 n = decChars n := by
  have h := toDigitsCore_eq_decChars (n + 1) n [] (Nat.lt_succ_self n)
  simpa [Nat.toDigits] using h

theorem digitChar_inj : ∀ n < 10, ∀ m < 10, Nat.digitChar n = Nat.digitChar m → n = m := by
  decide

theorem digitChar_isDigit : ∀ n < 10, 48 ≤ (Nat.digitChar n).toNat ∧ (Nat.digitChar n).toNat ≤ 57 := by
  decide

theorem map_digitChar_inj : ∀ (l₁ l₂ : List Nat), (∀ d ∈ l₁, d < 10) → (∀ d ∈ l₂, d < 10) →
    l₁.map Nat.digitChar = l₂.map Nat.digitChar → l₁ = l₂ := by
  intro l₁
  induction l₁ with
  | nil =>
    intro l₂ _ _ h
    cases l₂ with
    | nil => rfl
    | cons b l₂ => simp at h
  | cons a l₁ ih =>
    intro l₂ h₁ h₂ h
    cases l₂ with
    | nil => simp at h
    | cons b l₂ =>
      simp only [List.map_cons, List.cons.injEq] at h
      have hab : a = b :=
        digitChar_inj a (h₁ a (List.mem_cons_self _ _)) b (h₂ b (List.mem_cons_self _ _)) h.1
      have htl : l₁ = l₂ :=
        ih l₂ (fun d hd => h₁ d (List.mem_cons_of_mem _ hd))
          (fun d hd => h₂ d (List.mem_cons_of_mem _ hd)) h.2
      rw [hab, htl]

theorem digits_ne_singleton_zero (n : Nat) : Nat.digits 10 n ≠ [0] := by
  intro h
  have hn : n ≠ 0 := by
    intro h0
    subst h0
    simp at h
  have hl := Nat.getLast_digit_ne_zero 10 hn
  simp [h] at hl

theorem decChars_inj (n m : Nat) (h : decChars n = decChars m) : n = m := by
  have hlt : ∀ k, ∀ d ∈ (Nat.digits 10 k).reverse, d < 10 := by
    intro k d hd
    exact Nat.digits_lt_base (by decide) (List.mem_reverse.mp hd)
  have zero_case : ∀ k, k ≠ 0 → ['0'] ≠ (Nat.digits 10 k).reverse.map Nat.digitChar := by
    intro k hk hcontra
    have h0 : [0].map Nat.digitChar = (Nat.digits 10 k).reverse.map Nat.digitChar := by
      simpa [Nat.digitChar] using hcontra
    have h1 := map_digitChar_inj [0] _ (by simp) (hlt k) h0
    have h2 : Nat.digits 10 k = [0] := by
      have := congrArg List.reverse h1
      simpa using this.symm
    exact digits_ne_singleton_zero k h2
  unfold decChars at h
  by_cases hn : n = 0 <;> by_cases hm : m = 0
  · rw [hn, hm]
  · simp only [hn, hm, if_true, if_false] at h
    exact absurd h (zero_case m hm)
  · simp only [hn, hm, if_true, if_false] at h
    exact absurd h.symm (zero_case n hn)
  · simp only [hn, hm, if_false] at h
    have h1 := map_digitChar_inj _ _ (hlt n) (hlt m) h
    have h2 : Nat.digits 10 n = Nat.digits 10 m := List.reverse_injective h1
    exact Nat.digits_inj_iff.mp h2

theorem decChars_isDigit (n : Nat) : ∀ c ∈ decChars n, 48 ≤ c.toNat ∧ c.toNat ≤ 57 := by
  intro c hc
  unfold decChars at hc
  by_cases hn : n = 0
  · simp only [hn, if_true, List.mem_singleton] at hc
    subst hc
    decide
  · simp only [hn, if_false, List.mem_map, List.mem_reverse] at hc
    obtain ⟨d, hd, rfl⟩ := hc
    exact digitChar_isDigit d (Nat.digits_lt_base (by decide) hd)

theorem decChars_ne_nil (n : Nat) : decChars n ≠ [] := by
  unfold decChars
  by_cases hn : n = 0
  · simp [hn]
  · simp only [hn, if_false, ne_eq, List.map_eq_nil_iff, List.reverse_eq_nil_iff]
    exact fun h => hn (Nat.digits_eq_nil_iff_eq_zero.mp h)

theorem numberToString_inj (a b : Int) (h : numberToString a = numberToString b) : a = b := by
  have hminus : ∀ n k, decChars n ≠ '-' :: decChars k := by
    intro n k hc
    have hne := decChars_ne_nil n
    cases hl : decChars n with
    | nil => exact hne hl
    | cons c cs =>
      rw [hl] at hc
      have hmem : c ∈ decChars n := by rw [hl]; exact List.mem_cons_self _ _
      have hdig := decChars_isDigit n c hmem
      simp only [List.cons.injEq] at hc
      rw [hc.1] at hdig
      revert hdig
      decide
  cases a with
  | ofNat n =>
    cases b with
    | ofNat m =>
      simp only [numberToString, toDigits_eq_decChars] at h
      rw [decChars_inj n m h]
    | negSucc m =>
      simp only [numberToString, toDigits_eq_decChars] at h
      exact absurd h (hminus _ _)
  | negSucc n =>
    cases b with
    | ofNat m =>
      simp only [numberToString, toDigits_eq_decChars] at h
      exact absurd h.symm (hminus _ _)
    | negSucc m =>
      simp only [numberToString, toDigits_eq_decChars, List.cons.injEq, true_and] at h
      have := decChars_inj _ _ h
      have hnm : n = m := by omega
      rw [hnm]

theorem rbrace_not_mem_numberToString (a : Int) : rbrace ∉ numberToString a := by
  have hd : ∀ n, rbrace ∉ decChars n := by
    intro n hmem
    have := decChars_isDigit n rbrace hmem
    revert this
    decide
  cases a with
  | ofNat n =>
    simp only [numberToString, toDigits_eq_decChars]
    exact hd n
  | negSucc n =>
    simp only [numberToString, toDigits_eq_decChars, List.mem_cons, not_or]
    exact ⟨by decide, hd _⟩

/-- Two texts that end at the first occurrence of the same character agree when the
whole strings agree. -/
theorem append_cons_cancel {α : Type} (c : α) :
    ∀ (l₁ l₂ x y : List α), c ∉ l₁ → c ∉ l₂ → l₁ ++ c :: x = l₂ ++ c :: y →
      l₁ = l₂ ∧ x = y := by
  intro l₁
  induction l₁ with
  | nil =>
    intro l₂ x y _ h₂ h
    cases l₂ with
    | nil => simpa using h
    | cons b l₂ =>
      simp only [List.nil_append, List.cons_append, List.cons.injEq] at h
      exact absurd (h.1 ▸ List.mem_cons_self _ _) h₂
  | cons a l₁ ih =>
    intro l₂ x y h₁ h₂ h
    cases l₂ with
    | nil =>
      simp only [List.nil_append, List.cons_append, List.cons.injEq] at h
      exact absurd (h.1 ▸ List.mem_cons_self _ _) h₁
    | cons b l₂ =>
      simp only [List.cons_append, List.cons.injEq] at h
      have := ih l₂ x y (fun hm => h₁ (List.mem_cons_of_mem _ hm))
        (fun hm => h₂ (List.mem_cons_of_mem _ hm)) h.2
      exact ⟨by rw [h.1, this.1], this.2⟩

/-! ## Reading an escaped string back -/

theorem char_eq_of_toNat_eq (c d : Char) (h : c.toNat = d.toNat) : c = d := by
  apply Char.ext
  exact UInt32.ext (by simpa [Char.toNat] using h)

theorem hexVal_hexDigit : ∀ n < 32, 16 * hexVal (hexDigit (n / 16)) + hexVal (hexDigit (n % 16)) = n := by
  decide

theorem unescapeHead_escapeChar (c : Char) (x : List Char) :
    unescapeHead (escapeChar c ++ x) = some (c, x) := by
  unfold escapeChar
  split_ifs with h1 h2 h3 h4 h5 h6 h7 h8
  · have hc : c = Char.ofNat 34 := char_eq_of_toNat_eq _ _ h1
    subst hc
    rfl
  · have hc : c = Char.ofNat 92 := char_eq_of_toNat_eq _ _ h2
    subst hc
    rfl
  · have hc : c = Char.ofNat 8 := char_eq_of_toNat_eq _ _ h3
    subst hc
    rfl
  · have hc : c = Char.ofNat 9 := char_eq_of_toNat_eq _ _ h4
    subst hc
    rfl
  · have hc : c = Char.ofNat 10 := char_eq_of_toNat_eq _ _ h5
    subst hc
    rfl
  · have hc : c = Char.ofNat 12 := char_eq_of_toNat_eq _ _ h6
    subst hc
    rfl
  · have hc : c = Char.ofNat 13 := char_eq_of_toNat_eq _ _ h7
    subst hc
    rfl
  · have hv := hexVal_hexDigit c.toNat h8
    have hc : Char.ofNat (16 * hexVal (hexDigit (c.toNat / 16)) + hexVal (hexDigit (c.toNat % 16))) = c := by
      rw [hv]; exact Char.ofNat_toNat c
    show unescapeHead (bslash :: 'u' :: '0' :: '0' :: hexDigit (c.toNat / 16) :: hexDigit (c.toNat % 16) :: x) = _
    simp [unescapeHead, bslash, hc]
  · simp [unescapeHead, h2]

theorem escapeChar_step (c₁ c₂ : Char) (x y : List Char)
    (h : escapeChar c₁ ++ x = escapeChar c₂ ++ y) : c₁ = c₂ ∧ x = y := by
  have h₁ := unescapeHead_escapeChar c₁ x
  rw [h, unescapeHead_escapeChar c₂ y] at h₁
  simp only [Option.some.injEq, Prod.mk.injEq] at h₁
  exact ⟨h₁.1.symm, h₁.2.symm⟩

theorem escapeChar_ne_dquote (c : Char) (x y : List Char) :
    escapeChar c ++ x ≠ dquote :: y := by
  intro h
  have h₁ := unescapeHead_escapeChar c x
  rw [h] at h₁
  have h₂ : unescapeHead (dquote :: y) = some (dquote, y) := rfl
  rw [h₂] at h₁
  simp only [Option.some.injEq, Prod.mk.injEq] at h₁
  rw [← h₁.1] at h
  have h₃ : escapeChar dquote = [bslash, dquote] := rfl
  rw [h₃] at h
  simp only [List.cons_append, List.cons.injEq] at h
  exact absurd h.1 (by decide)

theorem escapeChars_cancel :
    ∀ (s₁ s₂ x y : List Char),
      escapeChars s₁ ++ dquote :: x = escapeChars s₂ ++ dquote :: y → s₁ = s₂ ∧ x = y := by
  intro s₁
  induction s₁ with
  | nil =>
    intro s₂ x y h
    cases s₂ with
    | nil => simpa [escapeChars] using h
    | cons c cs =>
      simp only [escapeChars, List.nil_append, List.append_assoc] at h
      exact absurd h.symm (escapeChar_ne_dquote _ _ _)
  | cons a s₁ ih =>
    intro s₂ x y h
    cases s₂ with
    | nil =>
      simp only [escapeChars, List.nil_append, List.append_assoc] at h
      exact absurd h (escapeChar_ne_dquote _ _ _)
    | cons c cs =>
      simp only [escapeChars, List.append_assoc] at h
      have h₁ := escapeChar_step _ _ _ _ h
      have h₂ := ih cs x y h₁.2
      exact ⟨by rw [h₁.1, h₂.1], h₂.2⟩

theorem quoteJSON_cancel (s₁ s₂ : String) (x y : List Char)
    (h : quoteJSON s₁ ++ x = quoteJSON s₂ ++ y) : s₁ = s₂ ∧ x = y := by
  simp only [quoteJSON, List.cons_append, List.append_assoc, List.cons.injEq, true_and,
    List.nil_append] at h
  have h₁ := escapeChars_cancel _ _ _ _ h
  exact ⟨String.ext h₁.1, h₁.2⟩

/-! ## The signature determines the (name, mult) pairs -/

theorem stringifyEntry_append (e : String × Int) (x : List Char) :
    stringifyEntry e ++ x =
      ([lbrace] ++ quoteJSON "name" ++ [':']) ++ (quoteJSON e.1 ++
        (([','] ++ quoteJSON "mult" ++ [':']) ++ (numberToString e.2 ++ rbrace :: x))) := by
  simp [stringifyEntry, List.append_assoc]

theorem stringifyEntry_cancel (e₁ e₂ : String × Int) (x y : List Char)
    (h : stringifyEntry e₁ ++ x = stringifyEntry e₂ ++ y) : e₁ = e₂ ∧ x = y := by
  rw [stringifyEntry_append, stringifyEntry_append] at h
  have h₁ := quoteJSON_cancel _ _ _ _ (List.append_cancel_left h)
  have h₂ := append_cons_cancel rbrace _ _ _ _ (rbrace_not_mem_numberToString _)
    (rbrace_not_mem_numberToString _) (List.append_cancel_left h₁.2)
  exact ⟨Prod.ext h₁.1 (numberToString_inj _ _ h₂.1), h₂.2⟩

theorem joinComma_cons (e : String × Int) (es : List (String × Int)) :
    joinComma ((e :: es).map stringifyEntry) ++ [']'] = stringifyEntry e ++ entriesTail es := by
  induction es generalizing e with
  | nil => simp [joinComma, entriesTail]
  | cons e' es ih =>
    have := ih e'
    simp only [List.map_cons] at this
    simp only [List.map_cons, joinComma, List.append_assoc, List.cons_append, entriesTail, this]

theorem entriesTail_inj :
    ∀ (es₁ es₂ : List (String × Int)), entriesTail es₁ = entriesTail es₂ → es₁ = es₂ := by
  intro es₁
  induction es₁ with
  | nil =>
    intro es₂ h
    cases es₂ with
    | nil => rfl
    | cons e es => simp [entriesTail] at h
  | cons a es₁ ih =>
    intro es₂ h
    cases es₂ with
    | nil => simp [entriesTail] at h
    | cons e es =>
      simp only [entriesTail, List.cons.injEq, true_and] at h
      have h₁ := stringifyEntry_cancel _ _ _ _ h
      rw [h₁.1, ih es h₁.2]

theorem stringifyEntry_head (e : String × Int) :
    ∃ t, stringifyEntry e = lbrace :: t := by
  exact ⟨_, by simp [stringifyEntry]; rfl⟩

theorem stringifyEntries_inj (es₁ es₂ : List (String × Int))
    (h : stringifyEntries es₁ = stringifyEntries es₂) : es₁ = es₂ := by
  unfold stringifyEntries at h
  simp only [List.cons.injEq, true_and] at h
  cases es₁ with
  | nil =>
    cases es₂ with
    | nil => rfl
    | cons e es =>
      rw [joinComma_cons] at h
      obtain ⟨t, ht⟩ := stringifyEntry_head e
      rw [ht] at h
      simp only [List.map_nil, joinComma, List.nil_append, List.cons_append, List.cons.injEq] at h
      exact absurd h.1 (by decide)
  | cons a es₁ =>
    cases es₂ with
    | nil =>
      rw [joinComma_cons] at h
      obtain ⟨t, ht⟩ := stringifyEntry_head a
      rw [ht] at h
      simp only [List.map_nil, joinComma, List.nil_append, List.cons_append, List.cons.injEq] at h
      exact absurd h.1 (by decide)
    | cons e es =>
      rw [joinComma_cons, joinComma_cons] at h
      have h₁ := stringifyEntry_cancel _ _ _ _ h
      rw [h₁.1, entriesTail_inj _ _ h₁.2]

theorem signature_eq_iff (a b : List Dart) :
    signature a = signature b ↔ a.map sigEntry = b.map sigEntry := by
  constructor
  · intro h
    unfold signature at h
    exact stringifyEntries_inj _ _ (by simpa using congrArg String.data h)
  · intro h
    unfold signature
    rw [h]

theorem length_eq_of_signature_eq (a b : List Dart) (h : signature a = signature b) :
    a.length = b.length := by
  have := congrArg List.length ((signature_eq_iff a b).mp h)
  simpa using this

theorem signature_ne_empty (a : List Dart) : signature a ≠ "" := by
  intro h
  unfold signature stringifyEntries at h
  have := congrArg String.data h
  simp at this

theorem signature_ne_of_length_ne (a b : List Dart) (h : a.length ≠ b.length) :
    signature a ≠ signature b :=
  fun hs => h (length_eq_of_signature_eq a b hs)


/-! ## Arithmetic within the exactly representable integers -/

theorem roundDouble_of_le (x : Int) (h : x.natAbs ≤ 2 ^ 53) :
    roundDouble x = JSNumber.finite x := by
  unfold roundDouble
  simp only [h, if_true]

theorem roundDouble_of_nonneg_of_le (x : Int) (h₀ : 0 ≤ x) (h : x ≤ 2 ^ 53) :
    roundDouble x = JSNumber.finite x := by
  apply roundDouble_of_le
  omega

theorem roundDouble_nonneg (x : Int) (h₀ : 0 ≤ x) :
    roundDouble x = JSNumber.posInf ∨ ∃ z, roundDouble x = JSNumber.finite z ∧ 0 ≤ z := by
  have hneg : ¬ x < 0 := by omega
  unfold roundDouble
  simp only [hneg, if_false]
  split_ifs
  all_goals first
    | exact Or.inl rfl
    | exact Or.inr ⟨x, rfl, h₀⟩
    | exact Or.inr ⟨_, rfl, Int.natCast_nonneg _⟩

theorem sum_nonneg_of_forall (zs : List Int) (h : ∀ z ∈ zs, 0 ≤ z) : 0 ≤ zs.sum := by
  induction zs with
  | nil => simp
  | cons z zs ih =>
    have h₁ := h z (List.mem_cons_self _ _)
    have h₂ := ih (fun y hy => h y (List.mem_cons_of_mem _ hy))
    simp only [List.sum_cons]
    omega

/-- Adding non-negative integers whose total stays within `2 ^ 53` is exact. -/
theorem foldl_jsAdd_exact (zs : List Int) :
    ∀ acc : Int, 0 ≤ acc → (∀ z ∈ zs, 0 ≤ z) → acc + zs.sum ≤ 2 ^ 53 →
      (zs.map JSNumber.finite).foldl jsAdd (JSNumber.finite acc) =
        JSNumber.finite (acc + zs.sum) := by
  induction zs with
  | nil => intro acc _ _ _; simp
  | cons z zs ih =>
    intro acc hacc hnn hle
    have hz := hnn z (List.mem_cons_self _ _)
    have hrest := sum_nonneg_of_forall zs (fun y hy => hnn y (List.mem_cons_of_mem _ hy))
    simp only [List.sum_cons] at hle
    have hstep : jsAdd (JSNumber.finite acc) (JSNumber.finite z) = JSNumber.finite (acc + z) := by
      show roundDouble (acc + z) = _
      exact roundDouble_of_nonneg_of_le _ (by omega) (by omega)
    simp only [List.map_cons, List.foldl_cons, hstep]
    rw [ih (acc + z) (by omega) (fun y hy => hnn y (List.mem_cons_of_mem _ hy)) (by omega)]
    simp only [List.sum_cons, add_assoc]

/-- The total of darts whose scores are non-negative integers with sum at most `2 ^ 53`
is the exact sum. -/
theorem foldl_calcScore_exact (l : List Dart) (zs : List Int)
    (hz : l.map (fun d => calcScore (some d)) = zs.map JSNumber.finite)
    (hnn : ∀ z ∈ zs, 0 ≤ z) (hle : zs.sum ≤ 2 ^ 53) :
    l.foldl (fun sum dart => jsAdd sum (calcScore (some dart))) (JSNumber.finite 0) =
      JSNumber.finite zs.sum := by
  have h₁ : l.foldl (fun sum dart => jsAdd sum (calcScore (some dart))) (JSNumber.finite 0) =
      (l.map (fun d => calcScore (some d))).foldl jsAdd (JSNumber.finite 0) := by
    rw [List.foldl_map]
  rw [h₁, hz, foldl_jsAdd_exact zs 0 (le_refl 0) hnn (by simpa using hle)]
  simp

/-! ## The two paths of the handler on a non-empty throws array -/

theorem orZero_some (n : Int) : orZero (some n) = n := by
  show (if n ≠ 0 then n else 0) = n
  split_ifs with h
  · rfl
  · exact (not_not.mp h).symm

theorem orZero_eq_getD (x : Option Int) : orZero x = x.getD 0 := by
  cases x with
  | none => rfl
  | some n => simpa using orZero_some n

/-- A snapshot whose signature is new is processed: the signature and the count are
stored, the last dart is written, and the visit total is written on the transition
to three darts. -/
theorem fetchState_fresh (t : Int) (self : Adapter) (ds : List Dart) (hne : ds ≠ [])
    (hsig : signature ds ≠ self.lastSignature) :
    fetchState t self (Body.parsed (ThrowsField.array ds)) =
      ({ lastThrowsCount := ds.length, lastSignature := signature ds, offline := false },
       [StateWrite.online true, StateWrite.throwCurrent (calcScore ds.getLast?),
        StateWrite.throwIsTriple (isTriple ds.getLast? (calcScore ds.getLast?) t)] ++
        (if ds.length = 3 ∧ self.lastThrowsCount < 3 then [StateWrite.visitScore (visitSum ds)]
         else [])) := by
  have hlen : ds.length ≠ 0 := fun h => hne (List.length_eq_zero.mp h)
  unfold fetchState
  simp only [hlen, if_false, hsig, orZero_some, visitSum]
  split_ifs <;> simp

/-- A snapshot whose signature is the stored one is skipped after `online` is written. -/
theorem fetchState_duplicate (t : Int) (self : Adapter) (ds : List Dart)
    (hsig : signature ds = self.lastSignature) :
    fetchState t self (Body.parsed (ThrowsField.array ds)) =
      ({ self with offline := false }, [StateWrite.online true]) := by
  unfold fetchState
  simp only [hsig, if_true]
  split_ifs <;> rfl

/-- An empty throws array is skipped after `online` is written. -/
theorem fetchState_empty (t : Int) (self : Adapter) :
    fetchState t self (Body.parsed (ThrowsField.array [])) =
      ({ self with offline := false }, [StateWrite.online true]) := by
  rfl

/-! ## Runs of polls -/

theorem ne_nil_of_length_eq {α : Type} (l : List α) (n : Nat) (h : l.length = n + 1) : l ≠ [] := by
  intro hl
  rw [hl] at h
  simp at h

theorem polls_append (t : Int) (self : Adapter) (xs ys : List Body) :
    polls t self (xs ++ ys) =
      ((polls t (polls t self xs).1 ys).1, (polls t self xs).2 ++ (polls t (polls t self xs).1 ys).2) := by
  induction xs generalizing self with
  | nil => simp [polls]
  | cons x xs ih => simp [polls, ih]

theorem visitSum_of_length_three (ds : List Dart) (h : ds.length = 3) :
    visitSum ds =
      ds.foldl (fun sum dart => jsAdd sum (calcScore (some dart))) (JSNumber.finite 0) := by
  simp [visitSum, h]

/-- The run over snapshots of 1, 2 and 3 darts from the initial tracker state. -/
theorem polls_one_two_three (t : Int) (self : Adapter) (S₁ S₂ S₃ : List Dart)
    (hs : self.lastSignature = "") (hc : self.lastThrowsCount = 0)
    (h₁ : S₁.length = 1) (h₂ : S₂.length = 2) (h₃ : S₃.length = 3) :
    polls t self [snapshot S₁, snapshot S₂, snapshot S₃] =
      ({ lastThrowsCount := 3, lastSignature := signature S₃, offline := false },
       [[StateWrite.online true, StateWrite.throwCurrent (calcScore S₁.getLast?),
          StateWrite.throwIsTriple (isTriple S₁.getLast? (calcScore S₁.getLast?) t)],
        [StateWrite.online true, StateWrite.throwCurrent (calcScore S₂.getLast?),
          StateWrite.throwIsTriple (isTriple S₂.getLast? (calcScore S₂.getLast?) t)],
        [StateWrite.online true, StateWrite.throwCurrent (calcScore S₃.getLast?),
          StateWrite.throwIsTriple (isTriple S₃.getLast? (calcScore S₃.getLast?) t),
          StateWrite.visitScore (S₃.foldl (fun sum dart => jsAdd sum (calcScore (some dart)))
            (JSNumber.finite 0))]]) := by
  have e₁ := fetchState_fresh t self S₁ (ne_nil_of_length_eq S₁ 0 h₁)
    (by rw [hs]; exact signature_ne_empty S₁)
  have e₂ := fetchState_fresh t
    { lastThrowsCount := S₁.length, lastSignature := signature S₁, offline := false } S₂
    (ne_nil_of_length_eq S₂ 1 h₂) (signature_ne_of_length_ne _ _ (by omega))
  have e₃ := fetchState_fresh t
    { lastThrowsCount := S₂.length, lastSignature := signature S₂, offline := false } S₃
    (ne_nil_of_length_eq S₃ 2 h₃) (signature_ne_of_length_ne _ _ (by omega))
  simp only [polls, snapshot, e₁, e₂, e₃]
  simp [h₁, h₂, h₃, hc, visitSum_of_length_three S₃ h₃]

/-! ## Visit completion -/

/-- C1, as stated, fails in its value: for three darts scoring `2 ^ 53`, 1 and 1 on a fresh
adapter the handler writes `visit.score = 9007199254740992`, while the sum of the three
scores is 9007199254740994. -/
theorem visit_score_not_exact_sum :
    largeVisit ≠ [] ∧ signature largeVisit ≠ constructor.lastSignature ∧
    largeVisit.map (fun d => calcScore (some d)) =
      [JSNumber.finite 9007199254740992, JSNumber.finite 1, JSNumber.finite 1] ∧
    StateWrite.visitScore (JSNumber.finite 9007199254740992) ∈
      (fetchState 1 constructor (Body.parsed (ThrowsField.array largeVisit))).2 ∧
    (9007199254740992 : Int) ≠ 9007199254740992 + 1 + 1 := by
  decide

/-- C1, amended: for every tracker state and every non-empty throws array whose signature
differs from `lastSignature`, the handler writes `visit.score` if and only if the array
has exactly 3 darts and `lastThrowsCount < 3`; the value written is `calcScore` of the last
3 darts added up from 0, left to right, in double arithmetic, and it is the exact sum
whenever the three scores are non-negative integers with sum at most `2 ^ 53`. -/
theorem visit_score_written_iff (t : Int) (self : Adapter) (ds : List Dart) (hne : ds ≠ [])
    (hsig : signature ds ≠ self.lastSignature) :
    ((∃ v, StateWrite.visitScore v ∈ (fetchState t self (Body.parsed (ThrowsField.array ds))).2) ↔
        (ds.length = 3 ∧ self.lastThrowsCount < 3)) ∧
    (∀ v, StateWrite.visitScore v ∈ (fetchState t self (Body.parsed (ThrowsField.array ds))).2 →
        v = (ds.drop (ds.length - 3)).foldl
          (fun sum dart => jsAdd sum (calcScore (some dart))) (JSNumber.finite 0)) ∧
    (∀ v, StateWrite.visitScore v ∈ (fetchState t self (Body.parsed (ThrowsField.array ds))).2 →
        ∀ zs : List Int,
          (ds.drop (ds.length - 3)).map (fun d => calcScore (some d)) = zs.map JSNumber.finite →
          (∀ z ∈ zs, 0 ≤ z) → zs.sum ≤ 2 ^ 53 → v = JSNumber.finite zs.sum) := by
  have hval : ∀ v,
      StateWrite.visitScore v ∈ (fetchState t self (Body.parsed (ThrowsField.array ds))).2 →
        v = (ds.drop (ds.length - 3)).foldl
          (fun sum dart => jsAdd sum (calcScore (some dart))) (JSNumber.finite 0) := by
    rw [fetchState_fresh t self ds hne hsig]
    by_cases hc : ds.length = 3 ∧ self.lastThrowsCount < 3
    · simp [hc, visitSum]
    · simp [hc]
  refine ⟨?_, hval, ?_⟩
  · rw [fetchState_fresh t self ds hne hsig]
    by_cases hc : ds.length = 3 ∧ self.lastThrowsCount < 3
    · simp [hc]
    · simp [hc]
  · intro v hv zs hz hnn hle
    rw [hval v hv]
    exact foldl_calcScore_exact _ zs hz hnn hle

theorem visit_score_written_iff_witness :
    sampleVisit ≠ [] ∧ signature sampleVisit ≠ constructor.lastSignature ∧
      ((∃ v, StateWrite.visitScore v ∈
          (fetchState 1 constructor (Body.parsed (ThrowsField.array sampleVisit))).2) ↔
        (sampleVisit.length = 3 ∧ constructor.lastThrowsCount < 3)) ∧
      ∀ v, StateWrite.visitScore v ∈
          (fetchState 1 constructor (Body.parsed (ThrowsField.array sampleVisit))).2 →
        v = JSNumber.finite 85 :=
  ⟨by decide, by decide,
    (visit_score_written_iff 1 constructor sampleVisit (by decide) (by decide)).1,
    fun v hv => (visit_score_written_iff 1 constructor sampleVisit (by decide) (by decide)).2.2
      v hv [60, 5, 20] (by decide) (by decide) (by decide)⟩

/-! ## Duplicate polls -/

/-- C2: for every non-empty snapshot and every tracker state whose `lastSignature`
differs from the snapshot's signature (the initial `lastSignature = ""` always does),
processing the snapshot twice in a row writes `throw.current` and `throw.isTriple` on the
first call and none of `throw.current`, `throw.isTriple`, `visit.score` on the second call,
which leaves `lastSignature` and `lastThrowsCount` as the first call stored them; over both
calls `visit.score` is written at most once. -/
theorem second_poll_is_silent (t : Int) (self : Adapter) (ds : List Dart) (hne : ds ≠ [])
    (hsig : signature ds ≠ self.lastSignature) :
    signature ds ≠ constructor.lastSignature ∧
    throwCurrents (fetchState t self (Body.parsed (ThrowsField.array ds))).2 =
        [calcScore ds.getLast?] ∧
    throwIsTriples (fetchState t self (Body.parsed (ThrowsField.array ds))).2 =
        [isTriple ds.getLast? (calcScore ds.getLast?) t] ∧
    throwCurrents (fetchState t (fetchState t self (Body.parsed (ThrowsField.array ds))).1
        (Body.parsed (ThrowsField.array ds))).2 = [] ∧
    throwIsTriples (fetchState t (fetchState t self (Body.parsed (ThrowsField.array ds))).1
        (Body.parsed (ThrowsField.array ds))).2 = [] ∧
    visitScores (fetchState t (fetchState t self (Body.parsed (ThrowsField.array ds))).1
        (Body.parsed (ThrowsField.array ds))).2 = [] ∧
    (fetchState t (fetchState t self (Body.parsed (ThrowsField.array ds))).1
        (Body.parsed (ThrowsField.array ds))).1.lastSignature =
      (fetchState t self (Body.parsed (ThrowsField.array ds))).1.lastSignature ∧
    (fetchState t (fetchState t self (Body.parsed (ThrowsField.array ds))).1
        (Body.parsed (ThrowsField.array ds))).1.lastThrowsCount =
      (fetchState t self (Body.parsed (ThrowsField.array ds))).1.lastThrowsCount ∧
    (visitScores (fetchState t self (Body.parsed (ThrowsField.array ds))).2 ++
      visitScores (fetchState t (fetchState t self (Body.parsed (ThrowsField.array ds))).1
        (Body.parsed (ThrowsField.array ds))).2).length ≤ 1 := by
  have h₁ := fetchState_fresh t self ds hne hsig
  have h₂ := fetchState_duplicate t (fetchState t self (Body.parsed (ThrowsField.array ds))).1 ds
    (by rw [h₁])
  refine ⟨signature_ne_empty ds, ?_⟩
  rw [h₂, h₁]
  by_cases hc : ds.length = 3 ∧ self.lastThrowsCount < 3
  · simp [hc, throwCurrents, throwIsTriples, visitScores]
  · simp [hc, throwCurrents, throwIsTriples, visitScores]

theorem second_poll_is_silent_witness :
    sampleVisit ≠ [] ∧ signature sampleVisit ≠ constructor.lastSignature ∧
    throwCurrents (fetchState 1 (fetchState 1 constructor
        (Body.parsed (ThrowsField.array sampleVisit))).1
        (Body.parsed (ThrowsField.array sampleVisit))).2 = [] ∧
    (visitScores (fetchState 1 constructor (Body.parsed (ThrowsField.array sampleVisit))).2 ++
      visitScores (fetchState 1 (fetchState 1 constructor
        (Body.parsed (ThrowsField.array sampleVisit))).1
        (Body.parsed (ThrowsField.array sampleVisit))).2).length ≤ 1 :=
  have h := second_poll_is_silent 1 constructor sampleVisit (by decide) (by decide)
  ⟨by decide, by decide, h.2.2.2.1, h.2.2.2.2.2.2.2.2⟩

/-! ## The sequences 1, 2, 3 and 1, 2, 3, 1 -/

/-- C3, as stated, fails in its value: from the initial tracker state, snapshots holding
the first one, the first two and all three of darts scoring `2 ^ 53`, 1 and 1 make the third
call write `visit.score = 9007199254740992`, while the three scores sum to
9007199254740994. -/
theorem run_total_not_exact_sum :
    largeVisit.map (fun d => calcScore (some d)) =
      [JSNumber.finite 9007199254740992, JSNumber.finite 1, JSNumber.finite 1] ∧
    (polls 1 constructor [snapshot (largeVisit.take 1), snapshot (largeVisit.take 2),
        snapshot largeVisit]).2.map visitScores =
      [[], [], [JSNumber.finite 9007199254740992]] ∧
    (9007199254740992 : Int) ≠ 9007199254740992 + 1 + 1 := by
  decide

/-- C3, amended: starting from the initial tracker state (`lastSignature = ""`,
`lastThrowsCount = 0`), processing snapshots of 1, 2 and 3 darts in that order writes
`visit.score` exactly once over the run, during the third call; the value written is
`calcScore` of the three darts of the third snapshot added up from 0, left to right, in
double arithmetic, and it is the exact sum whenever the three scores are non-negative
integers with sum at most `2 ^ 53`. -/
theorem visit_score_once_on_one_two_three (t : Int) (self : Adapter) (S₁ S₂ S₃ : List Dart)
    (hs : self.lastSignature = "") (hc : self.lastThrowsCount = 0)
    (h₁ : S₁.length = 1) (h₂ : S₂.length = 2) (h₃ : S₃.length = 3) :
    (polls t self [snapshot S₁, snapshot S₂, snapshot S₃]).2.map visitScores =
      [[], [], [S₃.foldl (fun sum dart => jsAdd sum (calcScore (some dart)))
        (JSNumber.finite 0)]] ∧
    ∀ zs : List Int, S₃.map (fun d => calcScore (some d)) = zs.map JSNumber.finite →
      (∀ z ∈ zs, 0 ≤ z) → zs.sum ≤ 2 ^ 53 →
        (polls t self [snapshot S₁, snapshot S₂, snapshot S₃]).2.map visitScores =
          [[], [], [JSNumber.finite zs.sum]] := by
  rw [polls_one_two_three t self S₁ S₂ S₃ hs hc h₁ h₂ h₃]
  refine ⟨by simp [visitScores], ?_⟩
  intro zs hz hnn hle
  rw [foldl_calcScore_exact S₃ zs hz hnn hle]
  simp [visitScores]

theorem visit_score_once_on_one_two_three_witness :
    constructor.lastSignature = "" ∧ constructor.lastThrowsCount = 0 ∧
    (polls 1 constructor [snapshot (sampleVisit.take 1), snapshot (sampleVisit.take 2),
        snapshot sampleVisit]).2.map visitScores = [[], [], [JSNumber.finite 85]] :=
  ⟨rfl, rfl, (visit_score_once_on_one_two_three 1 constructor (sampleVisit.take 1)
    (sampleVisit.take 2) sampleVisit rfl rfl (by decide) (by decide) (by decide)).2
      [60, 5, 20] (by decide) (by decide) (by decide)⟩

/-- C4: starting from the initial tracker state, processing snapshots of 1, 2, 3 and
then 1 darts (the last may hold the same dart as the first) makes the fourth call write
`throw.current = calcScore` of its only dart and no `visit.score`; `visit.score` is written
exactly once in the run, at the third snapshot, and `lastThrowsCount` is 1 afterwards. The
value written at the third snapshot is the total of its three darts in double arithmetic,
the exact sum for non-negative integer scores with sum at most `2 ^ 53`. -/
theorem new_visit_after_reset (t : Int) (self : Adapter) (S₁ S₂ S₃ : List Dart) (d₄ : Dart)
    (hs : self.lastSignature = "") (hc : self.lastThrowsCount = 0)
    (h₁ : S₁.length = 1) (h₂ : S₂.length = 2) (h₃ : S₃.length = 3) :
    (polls t self [snapshot S₁, snapshot S₂, snapshot S₃, snapshot [d₄]]).2.map throwCurrents =
      [[calcScore S₁.getLast?], [calcScore S₂.getLast?], [calcScore S₃.getLast?],
        [calcScore (some d₄)]] ∧
    (polls t self [snapshot S₁, snapshot S₂, snapshot S₃, snapshot [d₄]]).2.map visitScores =
      [[], [], [S₃.foldl (fun sum dart => jsAdd sum (calcScore (some dart)))
        (JSNumber.finite 0)], []] ∧
    (polls t self [snapshot S₁, snapshot S₂, snapshot S₃, snapshot [d₄]]).1.lastThrowsCount = 1 ∧
    ∀ zs : List Int, S₃.map (fun d => calcScore (some d)) = zs.map JSNumber.finite →
      (∀ z ∈ zs, 0 ≤ z) → zs.sum ≤ 2 ^ 53 →
        (polls t self [snapshot S₁, snapshot S₂, snapshot S₃, snapshot [d₄]]).2.map visitScores =
          [[], [], [JSNumber.finite zs.sum], []] := by
  have e := polls_one_two_three t self S₁ S₂ S₃ hs hc h₁ h₂ h₃
  have e₄ := fetchState_fresh t
    { lastThrowsCount := 3, lastSignature := signature S₃, offline := false } [d₄]
    (by simp) (signature_ne_of_length_ne _ _ (by simp [h₃]))
  have happ := polls_append t self [snapshot S₁, snapshot S₂, snapshot S₃] [snapshot [d₄]]
  simp only [List.cons_append, List.nil_append] at happ
  rw [happ, e]
  simp only [polls, snapshot, e₄]
  refine ⟨by simp [throwCurrents], by simp [visitScores], by simp, ?_⟩
  intro zs hz hnn hle
  rw [foldl_calcScore_exact S₃ zs hz hnn hle]
  simp [visitScores]

theorem new_visit_after_reset_witness :
    constructor.lastSignature = "" ∧ constructor.lastThrowsCount = 0 ∧
    (polls 1 constructor [snapshot (sampleVisit.take 1), snapshot (sampleVisit.take 2),
        snapshot sampleVisit, snapshot [mkDart "T20" 20 3]]).2.map visitScores =
      [[], [], [JSNumber.finite 85], []] ∧
    (polls 1 constructor [snapshot (sampleVisit.take 1), snapshot (sampleVisit.take 2),
        snapshot sampleVisit, snapshot [mkDart "T20" 20 3]]).1.lastThrowsCount = 1 :=
  have h := new_visit_after_reset 1 constructor (sampleVisit.take 1) (sampleVisit.take 2)
    sampleVisit (mkDart "T20" 20 3) rfl rfl (by decide) (by decide) (by decide)
  ⟨rfl, rfl, h.2.2.2 [60, 5, 20] (by decide) (by decide) (by decide), h.2.2.1⟩

/-! ## The score of a dart -/

/-- C5, as stated, fails: for `number = multiplier = 94906267` the product is
9007199515875289, but `calcScore` returns the nearest double, 9007199515875288; and for
`number = multiplier = 2 ^ 600` it returns `Infinity`, which is no integer. -/
theorem calcScore_not_exact_product :
    calcScore (some (mkDart "N" 94906267 94906267)) = JSNumber.finite 9007199515875288 ∧
    (94906267 : Int) * 94906267 = 9007199515875289 ∧
    calcScore (some (mkDart "N" 94906267 94906267)) ≠
      JSNumber.finite ((94906267 : Int) * 94906267) ∧
    calcScore (some (mkDart "N" ((2 ^ 200) ^ 3) ((2 ^ 200) ^ 3))) = JSNumber.posInf :=
  ⟨by decide, by decide, by decide,
    by simp [calcScore, mkDart, orZero, jsMul, roundDouble, overflowBound]⟩

/-- C5, amended: `calcScore` returns 0 for an absent dart and for a dart without segment;
for a dart with a segment whose `number` and `multiplier`, where present, are
non-negative integers it returns the double product of the two, a missing field counting
as 0: this is exactly `number * multiplier`, an integer `≥ 0`, whenever that product is at
most `2 ^ 53`, and in every case it is a non-negative integer or `Infinity`. -/
theorem calcScore_spec (name : Option String) (number multiplier : Option Int)
    (hn : ∀ n, number = some n → 0 ≤ n) (hm : ∀ m, multiplier = some m → 0 ≤ m) :
    calcScore none = JSNumber.finite 0 ∧
    calcScore (some { segment := none }) = JSNumber.finite 0 ∧
    calcScore (some
      { segment := some { name := name, number := number, multiplier := multiplier } }) =
        roundDouble (number.getD 0 * multiplier.getD 0) ∧
    (number.getD 0 * multiplier.getD 0 ≤ 2 ^ 53 →
      calcScore (some
        { segment := some { name := name, number := number, multiplier := multiplier } }) =
          JSNumber.finite (number.getD 0 * multiplier.getD 0) ∧
      0 ≤ number.getD 0 * multiplier.getD 0) ∧
    (calcScore (some
      { segment := some { name := name, number := number, multiplier := multiplier } }) =
        JSNumber.posInf ∨
      ∃ z, calcScore (some
        { segment := some { name := name, number := number, multiplier := multiplier } }) =
          JSNumber.finite z ∧ 0 ≤ z) := by
  have hcalc : calcScore (some
      { segment := some { name := name, number := number, multiplier := multiplier } }) =
        roundDouble (number.getD 0 * multiplier.getD 0) := by
    simp [calcScore, jsMul, orZero_eq_getD]
  have h₁ : 0 ≤ number.getD 0 := by
    cases number with
    | none => simp
    | some n => simpa using hn n rfl
  have h₂ : 0 ≤ multiplier.getD 0 := by
    cases multiplier with
    | none => simp
    | some m => simpa using hm m rfl
  have hprod : 0 ≤ number.getD 0 * multiplier.getD 0 := mul_nonneg h₁ h₂
  refine ⟨rfl, rfl, hcalc, ?_, ?_⟩
  · intro hle
    rw [hcalc]
    exact ⟨roundDouble_of_nonneg_of_le _ hprod hle, hprod⟩
  · rw [hcalc]
    exact roundDouble_nonneg _ hprod

theorem calcScore_spec_witness :
    calcScore (some
      { segment := some { name := some "T20", number := some 20, multiplier := some 3 } }) =
        JSNumber.finite 60 ∧
    calcScore (some
      { segment := some { name := some "T20", number := none, multiplier := some 3 } }) =
        JSNumber.finite 0 :=
  ⟨((calcScore_spec (some "T20") (some 20) (some 3)
      (fun n h => by cases h; decide) (fun m h => by cases h; decide)).2.2.2.1 (by decide)).1,
   ((calcScore_spec (some "T20") none (some 3)
      (fun n h => by cases h) (fun m h => by cases h; decide)).2.2.2.1 (by decide)).1⟩

/-! ## The last dart -/

/-- C6: for every non-duplicate non-empty snapshot and every numeric `tripleMinScore`,
the value written to `throw.isTriple` is true if and only if the last dart has a segment,
its multiplier equals 3 and `calcScore(lastDart) >= tripleMinScore`, and the value written
to `throw.current` is `calcScore(lastDart)`. A dart with multiplier 3 and number 20 scores
60 and gives `isTriple = true` for `tripleMinScore = 1`, `false` for `tripleMinScore = 100`. -/
theorem triple_flag_iff (t : Int) (self : Adapter) (ds : List Dart) (hne : ds ≠ [])
    (hsig : signature ds ≠ self.lastSignature) :
    (∃ b, throwIsTriples (fetchState t self (snapshot ds)).2 = [b] ∧
      (b = true ↔ ∃ seg, (ds.getLast hne).segment = some seg ∧ seg.multiplier = some 3 ∧
        jsGe (calcScore (some (ds.getLast hne))) t = true) ∧
      (∀ z, calcScore (some (ds.getLast hne)) = JSNumber.finite z →
        (b = true ↔ ∃ seg, (ds.getLast hne).segment = some seg ∧ seg.multiplier = some 3 ∧
          z ≥ t))) ∧
    throwCurrents (fetchState t self (snapshot ds)).2 = [calcScore (some (ds.getLast hne))] ∧
    (fetchState 1 constructor (snapshot [mkDart "T20" 20 3])).2 =
      [StateWrite.online true, StateWrite.throwCurrent (JSNumber.finite 60),
        StateWrite.throwIsTriple true] ∧
    (fetchState 100 constructor (snapshot [mkDart "T20" 20 3])).2 =
      [StateWrite.online true, StateWrite.throwCurrent (JSNumber.finite 60),
        StateWrite.throwIsTriple false] := by
  have hlast : ds.getLast? = some (ds.getLast hne) := List.getLast?_eq_getLast ds hne
  have hiff : isTriple (some (ds.getLast hne)) (calcScore (some (ds.getLast hne))) t = true ↔
      ∃ seg, (ds.getLast hne).segment = some seg ∧ seg.multiplier = some 3 ∧
        jsGe (calcScore (some (ds.getLast hne))) t = true := by
    simp only [isTriple]
    cases hseg : (ds.getLast hne).segment with
    | none => simp
    | some seg => simp [hseg]
  unfold snapshot
  rw [fetchState_fresh t self ds hne hsig, hlast]
  refine ⟨⟨isTriple (some (ds.getLast hne)) (calcScore (some (ds.getLast hne))) t, ?_, hiff, ?_⟩,
    ?_, by decide, by decide⟩
  · by_cases hc : ds.length = 3 ∧ self.lastThrowsCount < 3 <;> simp [hc, throwIsTriples]
  · intro z hz
    rw [hiff, hz]
    simp [jsGe]
  · by_cases hc : ds.length = 3 ∧ self.lastThrowsCount < 3 <;> simp [hc, throwCurrents]

theorem triple_flag_iff_witness :
    sampleVisit ≠ [] ∧ signature sampleVisit ≠ constructor.lastSignature ∧
    throwCurrents (fetchState 1 constructor (snapshot sampleVisit)).2 =
      [calcScore (some (sampleVisit.getLast (by decide)))] :=
  ⟨by decide, by decide,
    (triple_flag_iff 1 constructor sampleVisit (by decide) (by decide)).2.1⟩

/-! ## The signature -/

/-- C7, as stated, fails: a dart without segment and a dart whose segment name is the
empty string differ in their segment name (missing against `""`), and a dart with
multiplier 0 and the same dart without multiplier differ in their multiplier, yet in both
cases the two one-dart snapshots have the same signature. -/
theorem signature_collision_on_missing_fields :
    (segmentName dartNoSegment ≠ segmentName dartEmptyName ∧
      signature [dartNoSegment] = signature [dartEmptyName]) ∧
    (segmentMultiplier dartMissZero ≠ segmentMultiplier dartMissNoMultiplier ∧
      signature [dartMissZero] = signature [dartMissNoMultiplier]) := by
  decide

/-- C7, amended: two snapshots have the same signature exactly when they have the same
sequence of pairs (`name || ""`, `multiplier || 0`); so any difference in dart count, in
dart order, in some dart's defaulted name or in some dart's defaulted multiplier gives a
different signature. -/
theorem signature_injective_on_defaulted_pairs (S₁ S₂ : List Dart) :
    signature S₁ = signature S₂ ↔
      S₁.map (fun d => (orEmpty (segmentName d), orZero (segmentMultiplier d))) =
        S₂.map (fun d => (orEmpty (segmentName d), orZero (segmentMultiplier d))) :=
  signature_eq_iff S₁ S₂

/-- C8: snapshots whose darts agree position by position in segment name and multiplier
have equal signatures, whatever their segment numbers are. -/
theorem signature_ignores_number (S₁ S₂ : List Dart)
    (h : S₁.map (fun d => (segmentName d, segmentMultiplier d)) =
      S₂.map (fun d => (segmentName d, segmentMultiplier d))) :
    signature S₁ = signature S₂ := by
  rw [signature_eq_iff]
  have hcomp : ∀ S : List Dart, S.map sigEntry =
      (S.map (fun d => (segmentName d, segmentMultiplier d))).map
        (fun p => (orEmpty p.1, orZero p.2)) := by
    intro S
    simp [List.map_map, Function.comp_def, sigEntry]
  rw [hcomp S₁, hcomp S₂, h]

theorem signature_ignores_number_witness :
    [mkDart "T20" 20 3, mkDart "S5" 5 1] ≠ [mkDart "T20" 19 3, mkDart "S5" 7 1] ∧
    signature [mkDart "T20" 20 3, mkDart "S5" 5 1] =
      signature [mkDart "T20" 19 3, mkDart "S5" 7 1] :=
  ⟨by decide, signature_ignores_number _ _ (by decide)⟩

/-! ## Bodies without a usable throws list -/

/-- C9: for every tracker state and every response body that carries no non-empty
throws array (the body does not parse, or `throws` is missing, not an array, or an empty
array), the handler publishes `online = true` and nothing else, writes none of
`throw.current`, `throw.isTriple` and `visit.score`, and leaves `lastSignature` and
`lastThrowsCount` unchanged. -/
theorem no_usable_throws_is_silent (t : Int) (self : Adapter) (data : Body)
    (h : ∀ d ds, data ≠ Body.parsed (ThrowsField.array (d :: ds))) :
    StateWrite.online true ∈ (fetchState t self data).2 ∧
    (∀ w ∈ (fetchState t self data).2, w = StateWrite.online true) ∧
    throwCurrents (fetchState t self data).2 = [] ∧
    throwIsTriples (fetchState t self data).2 = [] ∧
    visitScores (fetchState t self data).2 = [] ∧
    (fetchState t self data).1.lastSignature = self.lastSignature ∧
    (fetchState t self data).1.lastThrowsCount = self.lastThrowsCount := by
  cases data with
  | unparseable => simp [fetchState, throwCurrents, throwIsTriples, visitScores]
  | nullValue => simp [fetchState, throwCurrents, throwIsTriples, visitScores]
  | parsed throws =>
    cases throws with
    | missing => simp [fetchState, throwCurrents, throwIsTriples, visitScores]
    | notArray => simp [fetchState, throwCurrents, throwIsTriples, visitScores]
    | array ds =>
      cases ds with
      | nil => simp [fetchState, throwCurrents, throwIsTriples, visitScores]
      | cons d ds => exact absurd rfl (h d ds)

theorem no_usable_throws_is_silent_witness :
    (fetchState 1 { lastThrowsCount := 2, lastSignature := "x", offline := true }
        Body.unparseable).2 = [StateWrite.online true, StateWrite.online true] ∧
    visitScores (fetchState 1 { lastThrowsCount := 2, lastSignature := "x", offline := true }
        Body.unparseable).2 = [] ∧
    (fetchState 1 { lastThrowsCount := 2, lastSignature := "x", offline := true }
        Body.unparseable).1.lastSignature = "x" :=
  have h := no_usable_throws_is_silent 1
    { lastThrowsCount := 2, lastSignature := "x", offline := true } Body.unparseable
    (fun d ds hd => by cases hd)
  ⟨by decide, h.2.2.2.2.1, h.2.2.2.2.2.1⟩

/-! ## An empty snapshot between two equal snapshots -/

/-- C10: an empty snapshot does not reset the deduplication state: for every tracker
state and every non-empty snapshot, processing the snapshot, then an empty throws array,
then the same snapshot again writes only `online` on the third call, so no
`throw.current`, `throw.isTriple` or `visit.score`. -/
theorem empty_snapshot_keeps_signature (t : Int) (self : Adapter) (ds : List Dart)
    (hne : ds ≠ []) :
    (polls t self [snapshot ds, snapshot [], snapshot ds]).2.drop 2 =
      [[StateWrite.online true]] ∧
    ((polls t self [snapshot ds, snapshot [], snapshot ds]).2.drop 2).map throwCurrents = [[]] ∧
    ((polls t self [snapshot ds, snapshot [], snapshot ds]).2.drop 2).map throwIsTriples = [[]] ∧
    ((polls t self [snapshot ds, snapshot [], snapshot ds]).2.drop 2).map visitScores = [[]] ∧
    (polls t self [snapshot ds, snapshot [], snapshot ds]).1.lastSignature = signature ds := by
  have key : (polls t self [snapshot ds, snapshot [], snapshot ds]).2.drop 2 =
      [[StateWrite.online true]] ∧
      (polls t self [snapshot ds, snapshot [], snapshot ds]).1.lastSignature = signature ds := by
    by_cases hsig : signature ds = self.lastSignature
    · have e₁ := fetchState_duplicate t self ds hsig
      have e₃ := fetchState_duplicate t { self with offline := false } ds hsig
      simp only [polls, snapshot, e₁, fetchState_empty, e₃]
      simp [hsig]
    · have e₁ := fetchState_fresh t self ds hne hsig
      have e₃ := fetchState_duplicate t
        { lastThrowsCount := ds.length, lastSignature := signature ds, offline := false } ds rfl
      simp only [polls, snapshot, e₁, fetchState_empty, e₃]
      simp
  rw [key.1]
  exact ⟨rfl, rfl, rfl, rfl, key.2⟩

theorem empty_snapshot_keeps_signature_witness :
    sampleVisit ≠ [] ∧
    (polls 1 constructor [snapshot sampleVisit, snapshot [], snapshot sampleVisit]).2.drop 2 =
      [[StateWrite.online true]] :=
  ⟨by decide, (empty_snapshot_keeps_signature 1 constructor sampleVisit (by decide)).1⟩

end Autodarts
